import Mathlib

/-!
Verification of the KPI computation engine and stop-clock effective-duration
model of the HCM service (src/index.tsx).

Timestamps (JS `Date`) are embedded as integers of milliseconds since the
epoch; JS `number` results (hours, averages) are embedded as exact rationals.
The implicit `new Date()` inside `effectiveHoursExcludingStops` and the resume
route is made an explicit `now : Int` parameter, as the spec's impurity
boundary prescribes.
-/

namespace HCM

/-- `const HOURS = 1000 * 60 * 60` (milliseconds per hour). -/
def HOURS : Int := 1000 * 60 * 60

/-- Ticket categories (`type TicketType`). -/
inductive TicketType
  | HIRING
  | ONBOARDING
  | PERFORMANCE
  | FAIRNESS
  | OTHER
deriving DecidableEq, Repr

/-- Ticket statuses (`type TicketStatus`). -/
inductive TicketStatus
  | OPEN
  | IN_PROGRESS
  | RESOLVED
  | CLOSED
deriving DecidableEq, Repr

/-- `interface Ticket` — `createdAt` is a Date (ms), `closedAt` optional. -/
structure Ticket where
  id : String
  type : TicketType
  status : TicketStatus
  title : String
  description : Option String
  createdAt : Int
  closedAt : Option Int
deriving DecidableEq, Repr

/-- `interface Requisition` with the four optional milestone timestamps. -/
structure Requisition where
  id : String
  ticketId : String
  keyRole : Bool
  approvedAt : Option Int
  firstInterviewAt : Option Int
  offerSignedAt : Option Int
  onboardedAt : Option Int
deriving DecidableEq, Repr

/-- `interface StopClock` — a pause interval; `endAt = none` means still open. -/
structure StopClock where
  id : String
  ticketId : String
  startAt : Int
  endAt : Option Int
  reason : String
deriving DecidableEq, Repr

/-- `interface ENPSResponse` — survey response with a numeric score. -/
structure ENPSResponse where
  score : ℚ
  comment : Option String
deriving DecidableEq, Repr

/-- A JS `number`-or-`null` array element as fed to `avg`: either a finite
rational, `NaN`, `±Infinity`, or the non-number `null` (which, like `NaN`,
fails `Number.isFinite`). -/
inductive JSNum
  | num (q : ℚ)
  | nan
  | inf
  | negInf
deriving DecidableEq, Repr

/-- `Number.isFinite` on a `JSNum`. -/
def JSNum.isFinite : JSNum → Bool
  | .num _ => true
  | _ => false

/-- The rational value of a finite `JSNum` (junk value 0 on non-finite ones,
which `avg` filters away before summing). -/
def JSNum.val : JSNum → ℚ
  | .num q => q
  | _ => 0

/-- `diffHours(a, b)` — `(a.getTime() - b.getTime()) / HOURS` when both dates
are present, `null` otherwise. -/
def diffHours : Option Int → Option Int → Option ℚ
  | some a, some b => some (((a - b : Int) : ℚ) / (HOURS : ℚ))
  | _, _ => none

/-- Injection of `diffHours`' result into the `avg` input list; models the TS
non-null assertion `diffHours(...)!`: a hypothetical `null` element fails
`Number.isFinite` exactly as `JSNum.nan` does. -/
def jnumOf : Option ℚ → JSNum
  | some q => .num q
  | none => .nan

/-- `avg(nums)` — filters to finite values, returns their arithmetic mean, or
`null` when nothing remains. -/
def avg (nums : List JSNum) : Option ℚ :=
  let arr := nums.filter JSNum.isFinite
  if arr.length = 0 then none
  else some ((arr.map JSNum.val).sum / (arr.length : ℚ))

/-- `overlapMs(aStart, aEnd, bStart, bEnd)` — length in ms of the intersection
of the closed intervals `[aStart, aEnd]` and `[bStart, bEnd]`, floored at 0. -/
def overlapMs (aStart aEnd bStart bEnd : Int) : Int :=
  max 0 (min aEnd bEnd - max aStart bStart)

/-- `s.endAt ?? new Date()` — the effective end of a stop interval, with open
intervals running until `now`. -/
def stopEnd (now : Int) (s : StopClock) : Int := s.endAt.getD now

/-- The `deducted` accumulator of `effectiveHoursExcludingStops`: the sum, over
the stop intervals belonging to `ticketId`, of each interval's own overlap with
the window (no merging of the stop intervals first). -/
def deductedMs (ticketId : String) (wStart wEnd : Int) (stopClocks : List StopClock)
    (now : Int) : Int :=
  ((stopClocks.filter (fun s => decide (s.ticketId = ticketId))).map
    (fun s => overlapMs wStart wEnd s.startAt (stopEnd now s))).sum

/-- `effectiveHoursExcludingStops(ticketId, start, end, stopClocks)` — window
length minus the summed stop overlaps, floored at 0, converted to hours;
returns 0 outright when the window length is ≤ 0. -/
def effectiveHoursExcludingStops (ticketId : String) (wStart wEnd : Int)
    (stopClocks : List StopClock) (now : Int) : ℚ :=
  let total := wEnd - wStart
  if total ≤ 0 then 0
  else ((max 0 (total - deductedMs ticketId wStart wEnd stopClocks now) : Int) : ℚ) / (HOURS : ℚ)

/-- JS `Math.round`: round half toward positive infinity. -/
def jsRound (q : ℚ) : Int := ⌊q + 1 / 2⌋

/-- The predicate of `within72` inside `computeTop8`:
`t.closedAt && effectiveHoursExcludingStops(t.id, t.createdAt, t.closedAt, stopClocks) <= 72`. -/
def within72Pred (stopClocks : List StopClock) (now : Int) (t : Ticket) : Bool :=
  match t.closedAt with
  | some c => decide (effectiveHoursExcludingStops t.id t.createdAt c stopClocks now ≤ 72)
  | none => false

/-- The KPI report: each metric a number or `null`. -/
structure Report where
  ttp : Option ℚ
  ttf : Option ℚ
  close72Rate : Option Int
  poolMultiple : Option ℚ
  eNPS : Option Int
deriving DecidableEq, Repr

/-- `computeTop8(ticketList, reqs, enps, stopClocks)` — the KPI engine
(spec name `computeReport`). -/
def computeTop8 (ticketList : List Ticket) (reqs : List Requisition)
    (enps : List ENPSResponse) (stopClocks : List StopClock) (now : Int) : Report :=
  let ttp := avg ((reqs.filter
      (fun r => r.keyRole && r.firstInterviewAt.isSome && r.offerSignedAt.isSome)).map
      (fun r => jnumOf (diffHours r.offerSignedAt r.firstInterviewAt)))
  let ttf := avg ((reqs.filter
      (fun r => r.approvedAt.isSome && r.onboardedAt.isSome)).map
      (fun r => jnumOf (diffHours r.onboardedAt r.approvedAt)))
  let fairness := ticketList.filter (fun t => decide (t.type = TicketType.FAIRNESS))
  let within72 := (fairness.filter (within72Pred stopClocks now)).length
  let close72Rate := if fairness.length = 0 then none
      else some (jsRound (((within72 : ℚ) / (fairness.length : ℚ)) * 100))
  let openReqs := (ticketList.filter (fun t => decide (t.type = TicketType.HIRING) &&
      (decide (t.status = TicketStatus.OPEN) || decide (t.status = TicketStatus.IN_PROGRESS)))).length
  let poolMultiple := if openReqs = 0 then none else some (3 : ℚ)
  let total := enps.length
  let promoters := (enps.filter (fun e => decide ((9 : ℚ) ≤ e.score))).length
  let detractors := (enps.filter (fun e => decide (e.score ≤ (6 : ℚ)))).length
  let eNPS := if total = 0 then none
      else some (jsRound (((promoters : ℚ) / (total : ℚ) - (detractors : ℚ) / (total : ℚ)) * 100))
  Report.mk ttp ttf close72Rate poolMultiple eNPS

/-- A stop interval with its `endAt` set to `now` (the mutation
`latest.endAt = new Date()` of the resume route). -/
def closeStop (now : Int) (s : StopClock) : StopClock :=
  StopClock.mk s.id s.ticketId s.startAt (some now) s.reason

/-- Helper of `resumeTicket`: closes the last (most recently appended) open
interval of the ticket, returning `none` when the list holds no such interval.
Models `[...store.stopClocks].reverse().find(s => s.ticketId === id && !s.endAt)`
followed by the in-place `endAt` assignment. -/
def resumeGo (tid : String) (now : Int) : List StopClock → Option (List StopClock)
  | [] => none
  | s :: rest =>
    match resumeGo tid now rest with
    | some rest2 => some (s :: rest2)
    | none =>
      if s.ticketId = tid ∧ s.endAt = none then some (closeStop now s :: rest) else none

/-- The resume route on the stop-clock ledger: set `endAt = now` on the most
recently added open interval of the ticket; no-op when none exists. -/
def resumeTicket (tid : String) (now : Int) (stops : List StopClock) : List StopClock :=
  (resumeGo tid now stops).getD stops

/-- `hoursAgo(h)` from the built-in tests: `now - h * HOURS`. -/
def hoursAgo (now : Int) (h : Int) : Int := now - h * HOURS

/-- The four demo requisitions of `runTests` (and of the seed data). -/
def demoReqs (now : Int) : List Requisition :=
  [Requisition.mk "RQ1" "R1" true (some (hoursAgo now 400)) (some (hoursAgo now 300))
      (some (hoursAgo now 276)) (some (hoursAgo now 200)),
   Requisition.mk "RQ2" "R2" true (some (hoursAgo now 500)) (some (hoursAgo now 250))
      (some (hoursAgo now 202)) (some (hoursAgo now 140)),
   Requisition.mk "RQ3" "X1" false (some (hoursAgo now 400)) none none
      (some (hoursAgo now 160)),
   Requisition.mk "RQ4" "X2" false (some (hoursAgo now 200)) none none
      (some (hoursAgo now 80))]

/-- The finite values of a `JSNum` list (the spec's "finite elements"). -/
def finiteVals (nums : List JSNum) : List ℚ :=
  nums.filterMap (fun n => match n with | .num q => some q | _ => none)

/-- A requisition with reversed milestones: approved one hour after epoch,
onboarded at the epoch, so its pairwise difference is −1 hour. -/
def revReq : Requisition := Requisition.mk "RQX" "T" false (some HOURS) none none (some 0)

/-- A Fairness ticket whose closure precedes its creation. -/
def revTicket : Ticket := Ticket.mk "F9" TicketType.FAIRNESS TicketStatus.CLOSED "t" none 1000 (some 500)

/-- A stop interval on that ticket covering far more than its window. -/
def revStop : StopClock := StopClock.mk "s" "F9" 0 (some 2000) "pause"

/-- Two stop intervals on ticket `T` that overlap each other on `[4h, 6h]`. -/
def ovStop1 : StopClock := StopClock.mk "s1" "T" 0 (some (6 * HOURS)) "r"

/-- See `ovStop1`. -/
def ovStop2 : StopClock := StopClock.mk "s2" "T" (4 * HOURS) (some (10 * HOURS)) "r"

/-- An open stop interval added first, with the later `startAt`. -/
def openStop1 : StopClock := StopClock.mk "a" "T" 10 none "r"

/-- An open stop interval added second, with the earlier `startAt`. -/
def openStop2 : StopClock := StopClock.mk "b" "T" 5 none "r"

lemma hours_pos : (0 : ℚ) < (HOURS : ℚ) := by norm_num [HOURS]

/-- `diffHours` on two `hoursAgo` timestamps is the difference of the hour
counts, whatever `now` is. -/
lemma diffHours_hoursAgo (now a b : Int) :
    diffHours (some (hoursAgo now b)) (some (hoursAgo now a)) = some ((a - b : Int) : ℚ) := by
  have h : (hoursAgo now b - hoursAgo now a : Int) = (a - b) * HOURS := by
    simp only [hoursAgo]; ring
  simp only [diffHours, h]
  congr 1
  push_cast
  rw [mul_div_assoc, div_self (ne_of_gt hours_pos)]
  ring

/-- The `within72` filter predicate, rewritten with `Option.isSome`/`getD`. -/
lemma within72Pred_eq (sc : List StopClock) (now : Int) (t : Ticket) :
    within72Pred sc now t
      = (t.closedAt.isSome &&
          decide (effectiveHoursExcludingStops t.id t.createdAt (t.closedAt.getD 0) sc now ≤ 72)) := by
  cases hc : t.closedAt <;> simp [within72Pred, hc]

/-- Filtering to finite values then extracting them equals `finiteVals`. -/
lemma filter_map_finiteVals (nums : List JSNum) :
    (nums.filter JSNum.isFinite).map JSNum.val = finiteVals nums := by
  induction nums with
  | nil => rfl
  | cons n rest ih =>
    cases n <;>
      simp_all [finiteVals, JSNum.isFinite, JSNum.val, List.filter_cons, List.filterMap_cons]

/-- Each summand of the stop-clock deduction is non-negative. -/
lemma overlapMs_nonneg (a b c d : Int) : 0 ≤ overlapMs a b c d := le_max_left 0 _

/-- The total stop-clock deduction is non-negative. -/
lemma deductedMs_nonneg (tid : String) (ws we : Int) (sc : List StopClock) (now : Int) :
    0 ≤ deductedMs tid ws we sc now := by
  apply List.sum_nonneg
  intro x hx
  obtain ⟨s, -, rfl⟩ := List.mem_map.mp hx
  exact overlapMs_nonneg _ _ _ _

/-- C8: `overlapMs` is symmetric in its two intervals and non-negative, and
returns zero whenever the intervals do not intersect or a range is reversed
(`aEnd < aStart` or `bEnd < bStart`). -/
theorem C8_overlap_symm_nonneg (a b c d : Int) :
    overlapMs a b c d = overlapMs c d a b
  ∧ 0 ≤ overlapMs a b c d
  ∧ (b < c ∨ d < a → overlapMs a b c d = 0)
  ∧ (b < a → overlapMs a b c d = 0)
  ∧ (d < c → overlapMs a b c d = 0) := by
  refine ⟨?_, ?_, ?_, ?_, ?_⟩ <;> simp only [overlapMs] <;> omega

/-- C8 witness: the properties at the concrete interval pairs
`[0, 5] / [3, 9]` (intersecting), `[0, 5] / [7, 9]` (disjoint) and
`[5, 0] / [0, 9]` (reversed). -/
theorem C8_witness :
    overlapMs 0 5 3 9 = overlapMs 3 9 0 5
  ∧ 0 ≤ overlapMs 0 5 3 9
  ∧ overlapMs 0 5 7 9 = 0
  ∧ overlapMs 5 0 0 9 = 0
  ∧ overlapMs 0 9 5 0 = 0 :=
  ⟨(C8_overlap_symm_nonneg 0 5 3 9).1,
   (C8_overlap_symm_nonneg 0 5 3 9).2.1,
   (C8_overlap_symm_nonneg 0 5 7 9).2.2.1 (Or.inl (by norm_num)),
   (C8_overlap_symm_nonneg 5 0 0 9).2.2.2.1 (by norm_num),
   (C8_overlap_symm_nonneg 0 9 5 0).2.2.2.2 (by norm_num)⟩

/-- C9: `avg` is the arithmetic mean of the finite elements, `null` exactly
when no finite element remains; in particular `avg [] = null` and
`avg [NaN, 5, 10] = 7.5`. -/
theorem C9_avg_mean (nums : List JSNum) :
    avg nums = (if finiteVals nums = [] then none
        else some ((finiteVals nums).sum / ((finiteVals nums).length : ℚ)))
  ∧ avg [] = none
  ∧ avg [JSNum.nan, JSNum.num 5, JSNum.num 10] = some (15 / 2) := by
  refine ⟨?_, rfl, ?_⟩
  · simp only [avg, ← filter_map_finiteVals nums]
    rcases eq_or_ne (nums.filter JSNum.isFinite) [] with he | he
    · simp [he]
    · have h1 : ¬(nums.filter JSNum.isFinite).length = 0 := by
        simpa [List.length_eq_zero] using he
      have h2 : ¬(nums.filter JSNum.isFinite).map JSNum.val = [] := by
        simpa [List.map_eq_nil_iff] using he
      rw [if_neg h1, if_neg h2]
      simp
  · simp [avg, JSNum.isFinite, JSNum.val]
    norm_num

/-- C2 counterexample: a requisition with reversed `approvedAt`/`onboardedAt`
(one hour apart) is neither zeroed nor excluded from `ttf` — it contributes its
negative duration, making `ttf = −1`. -/
theorem C2_counterexample :
    (computeTop8 [] [revReq] [] [] 0).ttf = some (-1)
  ∧ ¬((computeTop8 [] [revReq] [] [] 0).ttf = some 0
      ∨ (computeTop8 [] [revReq] [] [] 0).ttf = none) := by
  have h : (computeTop8 [] [revReq] [] [] 0).ttf = some (-1) := by
    simp [computeTop8, revReq, avg, diffHours, jnumOf, JSNum.isFinite, JSNum.val, HOURS]
  refine ⟨h, ?_⟩
  rw [h]
  rintro (h0 | h0)
  · exact absurd (Option.some.inj h0) (by norm_num)
  · exact Option.noConfusion h0

/-- C2 (amended): the engine is total — a single requisition with both
`approvedAt` and `onboardedAt` present always yields
`ttf = (onboardedAt − approvedAt) / HOURS`, a value that is included as-is even
when the milestones are reversed and the duration negative (not degraded to
zero, not excluded). -/
theorem C2_ttf_includes_negative (r : Requisition) (a b now : Int)
    (ha : r.approvedAt = some a) (hb : r.onboardedAt = some b) :
    (computeTop8 [] [r] [] [] now).ttf = some (((b - a : Int) : ℚ) / (HOURS : ℚ)) := by
  simp [computeTop8, avg, ha, hb, diffHours, jnumOf, JSNum.isFinite, JSNum.val]

/-- C2 witness: the amended theorem applied to the reversed requisition
`revReq`, whose contribution `(0 − HOURS) / HOURS = −1` stays in the average. -/
theorem C2_witness :
    (computeTop8 [] [revReq] [] [] 0).ttf = some (((0 - HOURS : Int) : ℚ) / (HOURS : ℚ)) :=
  C2_ttf_includes_negative revReq HOURS 0 0 rfl rfl

/-- C6: `eNPS` equals `round((promoters/total − detractors/total) * 100)` with
promoters the responses scoring ≥ 9 and detractors those scoring ≤ 6, is
`null` exactly on an empty response list, and the scores `[10,9,9,8,7,6,0]`
yield 14. -/
theorem C6_eNPS_formula :
    (∀ (tl : List Ticket) (reqs : List Requisition) (enps : List ENPSResponse)
        (sc : List StopClock) (now : Int),
      (computeTop8 tl reqs enps sc now).eNPS =
        if enps.length = 0 then none
        else some (jsRound ((((enps.countP (fun e => decide ((9 : ℚ) ≤ e.score))) : ℚ) / (enps.length : ℚ)
            - ((enps.countP (fun e => decide (e.score ≤ (6 : ℚ)))) : ℚ) / (enps.length : ℚ)) * 100)))
  ∧ (computeTop8 [] [] ([10, 9, 9, 8, 7, 6, 0].map (fun q => ENPSResponse.mk q none)) [] 0).eNPS
      = some 14 := by
  constructor
  · intro tl reqs enps sc now
    simp [computeTop8, List.countP_eq_length_filter]
  · have h : (computeTop8 [] [] ([10, 9, 9, 8, 7, 6, 0].map (fun q => ENPSResponse.mk q none)) [] 0).eNPS
        = some (jsRound ((((3 : ℕ) : ℚ) / ((7 : ℕ) : ℚ) - ((2 : ℕ) : ℚ) / ((7 : ℕ) : ℚ)) * 100)) := rfl
    rw [h]
    congr 1
    rw [jsRound, Int.floor_eq_iff]
    norm_num

/-- C10: a Fairness ticket whose `closedAt` is not after its `createdAt` has
effective duration 0 whatever the stop-clock ledger holds, so it satisfies the
`within72` predicate and lands in the numerator filter of `close72Rate`. -/
theorem C10_reversed_window_counted (t : Ticket) (c : Int) (sc : List StopClock) (now : Int)
    (ht : t.type = TicketType.FAIRNESS) (hc : t.closedAt = some c) (hle : c ≤ t.createdAt) :
    effectiveHoursExcludingStops t.id t.createdAt c sc now = 0
  ∧ within72Pred sc now t = true
  ∧ ∀ (tl : List Ticket), t ∈ tl →
      t ∈ (tl.filter (fun x => decide (x.type = TicketType.FAIRNESS))).filter
            (within72Pred sc now) := by
  have h0 : effectiveHoursExcludingStops t.id t.createdAt c sc now = 0 := by
    simp only [effectiveHoursExcludingStops]
    rw [if_pos (by omega)]
  have h1 : within72Pred sc now t = true := by
    simp [within72Pred, hc, h0]
  refine ⟨h0, h1, fun tl hmem => ?_⟩
  rw [List.mem_filter]
  exact ⟨List.mem_filter.mpr ⟨hmem, by simp [ht]⟩, h1⟩

/-- C10 witness: the concrete reversed ticket `revTicket` (created at 1000 ms,
closed at 500 ms) with a stop interval `revStop` covering its whole window is
still counted as closed within 72 hours. -/
theorem C10_witness :
    effectiveHoursExcludingStops revTicket.id revTicket.createdAt 500 [revStop] 0 = 0
  ∧ within72Pred [revStop] 0 revTicket = true
  ∧ revTicket ∈ ([revTicket].filter (fun x => decide (x.type = TicketType.FAIRNESS))).filter
        (within72Pred [revStop] 0) := by
  have h := C10_reversed_window_counted revTicket 500 [revStop] 0 rfl rfl (by norm_num [revTicket])
  exact ⟨h.1, h.2.1, h.2.2 [revTicket] (by simp)⟩

/-- C1: on the four demo requisitions of `runTests` the engine computes
`ttf = 230` (the mean of 200, 360, 240 and 120 hours), not the value 180 the
built-in test asserts — the code contradicts its own regression test. -/
theorem C1_ttf_demo_is_230 (now : Int) :
    (computeTop8 [] (demoReqs now) [] [] now).ttf = some 230
  ∧ some (230 : ℚ) ≠ some (180 : ℚ) := by
  constructor
  · simp [computeTop8, demoReqs, avg, jnumOf, JSNum.isFinite, JSNum.val, diffHours_hoursAgo]
    norm_num
  · intro hcontra
    exact absurd (Option.some.inj hcontra) (by norm_num)

/-- C3: `close72Rate` is `round(100 * n / f)` where `f` counts all Fairness
tickets and `n` counts the Fairness tickets with `closedAt` present whose
effective duration over `[createdAt, closedAt]` (net of the ticket's stop-clock
pauses) is at most 72 hours, and it is `null` exactly when `f = 0`. -/
theorem C3_close72Rate_formula (tl : List Ticket) (reqs : List Requisition)
    (enps : List ENPSResponse) (sc : List StopClock) (now : Int) :
    ((computeTop8 tl reqs enps sc now).close72Rate =
      if tl.countP (fun t => decide (t.type = TicketType.FAIRNESS)) = 0 then none
      else some (jsRound (100 *
          ((tl.countP (fun t => decide (t.type = TicketType.FAIRNESS) && t.closedAt.isSome &&
              decide (effectiveHoursExcludingStops t.id t.createdAt (t.closedAt.getD 0) sc now ≤ 72)) : ℚ)
            / (tl.countP (fun t => decide (t.type = TicketType.FAIRNESS)) : ℚ)))))
  ∧ ((computeTop8 tl reqs enps sc now).close72Rate = none
      ↔ tl.countP (fun t => decide (t.type = TicketType.FAIRNESS)) = 0) := by
  have hnum : ((tl.filter (fun t => decide (t.type = TicketType.FAIRNESS))).filter
        (within72Pred sc now)).length
      = tl.countP (fun t => decide (t.type = TicketType.FAIRNESS) && t.closedAt.isSome &&
          decide (effectiveHoursExcludingStops t.id t.createdAt (t.closedAt.getD 0) sc now ≤ 72)) := by
    have hpred : (fun a => within72Pred sc now a && decide (a.type = TicketType.FAIRNESS))
        = (fun t : Ticket => decide (t.type = TicketType.FAIRNESS) && t.closedAt.isSome &&
            decide (effectiveHoursExcludingStops t.id t.createdAt (t.closedAt.getD 0) sc now ≤ 72)) := by
      funext t
      simp [within72Pred_eq, Bool.and_comm, Bool.and_left_comm, Bool.and_assoc]
    rw [List.filter_filter, hpred, List.countP_eq_length_filter]
  have hden : (tl.filter (fun t => decide (t.type = TicketType.FAIRNESS))).length
      = tl.countP (fun t => decide (t.type = TicketType.FAIRNESS)) := by
    rw [List.countP_eq_length_filter]
  have hmain : (computeTop8 tl reqs enps sc now).close72Rate =
      if tl.countP (fun t => decide (t.type = TicketType.FAIRNESS)) = 0 then none
      else some (jsRound (100 *
          ((tl.countP (fun t => decide (t.type = TicketType.FAIRNESS) && t.closedAt.isSome &&
              decide (effectiveHoursExcludingStops t.id t.createdAt (t.closedAt.getD 0) sc now ≤ 72)) : ℚ)
            / (tl.countP (fun t => decide (t.type = TicketType.FAIRNESS)) : ℚ)))) := by
    simp only [computeTop8]
    rw [hnum, hden, mul_comm]
  refine ⟨hmain, ?_⟩
  rw [hmain]
  rcases eq_or_ne (tl.countP (fun t => decide (t.type = TicketType.FAIRNESS))) 0 with h | h
  · simp [h]
  · simp [h]

/-- C4 counterexample: for a reversed window (start one hour after end) with no
stop intervals, the effective duration is 0, which is strictly greater than
`(end − start)` in hours (−1) — the unconditional "at most `end − start`, with
equality when no stop intersects" clauses of the claim fail. -/
theorem C4_counterexample :
    effectiveHoursExcludingStops "T" HOURS 0 [] 0 = 0
  ∧ ¬(effectiveHoursExcludingStops "T" HOURS 0 [] 0 ≤ ((0 - HOURS : Int) : ℚ) / (HOURS : ℚ))
  ∧ effectiveHoursExcludingStops "T" HOURS 0 [] 0 ≠ ((0 - HOURS : Int) : ℚ) / (HOURS : ℚ) := by
  have h0 : effectiveHoursExcludingStops "T" HOURS 0 [] 0 = 0 := by
    simp only [effectiveHoursExcludingStops]
    rw [if_pos (by norm_num [HOURS])]
  have hneg : ((0 - HOURS : Int) : ℚ) / (HOURS : ℚ) = -1 := by
    norm_num [HOURS]
  refine ⟨h0, ?_, ?_⟩ <;> rw [h0, hneg] <;> norm_num

/-- C4 (amended): the effective duration is never negative and is zero for a
non-positive window; for a well-ordered window (`windowStart ≤ windowEnd`) it
is at most `(end − start)` in hours, with equality whenever every stop interval
of the ticket has zero overlap with the window (in particular when none
intersects it). -/
theorem C4_effective_bounds (tid : String) (ws we : Int) (sc : List StopClock) (now : Int) :
    0 ≤ effectiveHoursExcludingStops tid ws we sc now
  ∧ (we ≤ ws → effectiveHoursExcludingStops tid ws we sc now = 0)
  ∧ (ws ≤ we →
      effectiveHoursExcludingStops tid ws we sc now ≤ ((we - ws : Int) : ℚ) / (HOURS : ℚ))
  ∧ (ws ≤ we →
      (∀ st ∈ sc, st.ticketId = tid → overlapMs ws we st.startAt (stopEnd now st) = 0) →
      effectiveHoursExcludingStops tid ws we sc now = ((we - ws : Int) : ℚ) / (HOURS : ℚ)) := by
  have hd0 := deductedMs_nonneg tid ws we sc now
  refine ⟨?_, ?_, ?_, ?_⟩
  · simp only [effectiveHoursExcludingStops]
    by_cases h : we - ws ≤ 0
    · rw [if_pos h]
    · rw [if_neg h]
      apply div_nonneg _ hours_pos.le
      exact_mod_cast le_max_left 0 _
  · intro hle
    simp only [effectiveHoursExcludingStops]
    rw [if_pos (by omega)]
  · intro hle
    simp only [effectiveHoursExcludingStops]
    by_cases h : we - ws ≤ 0
    · rw [if_pos h]
      have h0 : we - ws = 0 := by omega
      rw [h0]
      norm_num
    · rw [if_neg h, div_le_div_iff_of_pos_right hours_pos]
      exact_mod_cast (by omega : max 0 (we - ws - deductedMs tid ws we sc now) ≤ we - ws)
  · intro hle hstops
    have hd : deductedMs tid ws we sc now = 0 := by
      apply List.sum_eq_zero
      intro x hx
      obtain ⟨s, hs, rfl⟩ := List.mem_map.mp hx
      have hmem := List.mem_filter.mp hs
      exact hstops s hmem.1 (by simpa using hmem.2)
    simp only [effectiveHoursExcludingStops]
    by_cases h : we - ws ≤ 0
    · rw [if_pos h]
      have h0 : we - ws = 0 := by omega
      rw [h0]
      norm_num
    · rw [if_neg h, hd]
      congr 1
      exact_mod_cast (by omega : max 0 (we - ws - 0) = we - ws)

/-- C4 witness: the amended bounds at the window `[0, HOURS]` of ticket `T`
(with the reversed-window clause checked at `[HOURS, 0]`), against a stop
ledger holding one interval of another ticket overlapping the window and one
interval of `T` lying entirely after it. -/
theorem C4_witness :
    0 ≤ effectiveHoursExcludingStops "T" 0 HOURS
        [StopClock.mk "u" "U" 0 (some HOURS) "r", StopClock.mk "v" "T" (2 * HOURS) (some (3 * HOURS)) "r"] 0
  ∧ effectiveHoursExcludingStops "T" HOURS 0
        [StopClock.mk "u" "U" 0 (some HOURS) "r", StopClock.mk "v" "T" (2 * HOURS) (some (3 * HOURS)) "r"] 0 = 0
  ∧ effectiveHoursExcludingStops "T" 0 HOURS
        [StopClock.mk "u" "U" 0 (some HOURS) "r", StopClock.mk "v" "T" (2 * HOURS) (some (3 * HOURS)) "r"] 0
      ≤ ((HOURS - 0 : Int) : ℚ) / (HOURS : ℚ)
  ∧ effectiveHoursExcludingStops "T" 0 HOURS
        [StopClock.mk "u" "U" 0 (some HOURS) "r", StopClock.mk "v" "T" (2 * HOURS) (some (3 * HOURS)) "r"] 0
      = ((HOURS - 0 : Int) : ℚ) / (HOURS : ℚ) := by
  have h := C4_effective_bounds "T" 0 HOURS
      [StopClock.mk "u" "U" 0 (some HOURS) "r", StopClock.mk "v" "T" (2 * HOURS) (some (3 * HOURS)) "r"] 0
  have hrev := C4_effective_bounds "T" HOURS 0
      [StopClock.mk "u" "U" 0 (some HOURS) "r", StopClock.mk "v" "T" (2 * HOURS) (some (3 * HOURS)) "r"] 0
  have hzero : ∀ st ∈ [StopClock.mk "u" "U" 0 (some HOURS) "r",
        StopClock.mk "v" "T" (2 * HOURS) (some (3 * HOURS)) "r"],
      st.ticketId = "T" → overlapMs 0 HOURS st.startAt (stopEnd 0 st) = 0 := by
    intro st hst h1
    simp only [List.mem_cons, List.not_mem_nil, or_false] at hst
    rcases hst with h2 | h2
    · rw [h2] at h1
      exact absurd h1 (by simp)
    · rw [h2]
      simp only [overlapMs, stopEnd]
      norm_num [HOURS]
  exact ⟨h.1, hrev.2.1 (by norm_num [HOURS]), h.2.2.1 (by norm_num [HOURS]),
    h.2.2.2 (by norm_num [HOURS]) hzero⟩

/-- C5: the deduction sums each stop interval's own overlap with the window
independently — for any two stop intervals of the ticket the amount subtracted
is exactly `overlap(window, s1) + overlap(window, s2)` (so any portion shared
by the two intervals is subtracted twice), and for a positive window the
effective duration is that doubly-reduced difference floored at zero. -/
theorem C5_independent_overlap_sum (tid : String) (ws we now : Int) (s1 s2 : StopClock)
    (h1 : s1.ticketId = tid) (h2 : s2.ticketId = tid) :
    deductedMs tid ws we [s1, s2] now
      = overlapMs ws we s1.startAt (stopEnd now s1) + overlapMs ws we s2.startAt (stopEnd now s2)
  ∧ (0 < we - ws →
      effectiveHoursExcludingStops tid ws we [s1, s2] now
        = ((max 0 ((we - ws) - (overlapMs ws we s1.startAt (stopEnd now s1)
            + overlapMs ws we s2.startAt (stopEnd now s2))) : Int) : ℚ) / (HOURS : ℚ)) := by
  have hd : deductedMs tid ws we [s1, s2] now
      = overlapMs ws we s1.startAt (stopEnd now s1)
        + overlapMs ws we s2.startAt (stopEnd now s2) := by
    simp [deductedMs, h1, h2]
  refine ⟨hd, fun hpos => ?_⟩
  simp only [effectiveHoursExcludingStops]
  rw [if_neg (by omega), hd]

/-- C5 witness: ticket `T`, window `[0, 10h]`, stops `[0, 6h]` and `[4h, 10h]`
(overlapping each other on `[4h, 6h]`): the deduction is 6h + 6h = 12h — the
shared 2h counted twice — and the effective duration is floored to 0 even
though the un-paused time is 0h only if the pauses are merged incorrectly. -/
theorem C5_witness :
    deductedMs "T" 0 (10 * HOURS) [ovStop1, ovStop2] 0 = 6 * HOURS + 6 * HOURS
  ∧ effectiveHoursExcludingStops "T" 0 (10 * HOURS) [ovStop1, ovStop2] 0 = 0 := by
  have h := C5_independent_overlap_sum "T" 0 (10 * HOURS) 0 ovStop1 ovStop2 rfl rfl
  have ho1 : overlapMs 0 (10 * HOURS) ovStop1.startAt (stopEnd 0 ovStop1) = 6 * HOURS := by
    simp only [ovStop1, overlapMs, stopEnd]
    norm_num [HOURS]
  have ho2 : overlapMs 0 (10 * HOURS) ovStop2.startAt (stopEnd 0 ovStop2) = 6 * HOURS := by
    simp only [ovStop2, overlapMs, stopEnd]
    norm_num [HOURS]
  constructor
  · rw [h.1, ho1, ho2]
  · rw [h.2 (by norm_num [HOURS]), ho1, ho2]
    norm_num [HOURS]

/-- `resumeGo` finds nothing when the ledger has no open interval of the
ticket. -/
lemma resumeGo_none (tid : String) (now : Int) (stops : List StopClock)
    (h : ∀ s ∈ stops, ¬(s.ticketId = tid ∧ s.endAt = none)) :
    resumeGo tid now stops = none := by
  induction stops with
  | nil => rfl
  | cons s rest ih =>
    rw [resumeGo, ih (fun x hx => h x (List.mem_cons_of_mem _ hx))]
    simp only
    rw [if_neg (h s (List.mem_cons_self _ _))]

/-- `resumeGo` closes the rightmost (most recently appended) open interval of
the ticket. -/
lemma resumeGo_append (tid : String) (now : Int) (pre post : List StopClock) (s : StopClock)
    (hs : s.ticketId = tid) (he : s.endAt = none)
    (hpost : ∀ x ∈ post, ¬(x.ticketId = tid ∧ x.endAt = none)) :
    resumeGo tid now (pre ++ s :: post) = some (pre ++ closeStop now s :: post) := by
  induction pre with
  | nil =>
    rw [List.nil_append, resumeGo, resumeGo_none tid now post hpost]
    simp only
    rw [if_pos ⟨hs, he⟩, List.nil_append]
  | cons p pre ih =>
    rw [List.cons_append, resumeGo, ih, List.cons_append]

/-- C7: Resume sets `endAt = now` on the most recently added open stop interval
of the ticket — recency by insertion order (position in the list), independent
of `startAt` — and is a no-op returning the ledger unchanged when the ticket
has no open interval. -/
theorem C7_resume_semantics :
    (∀ (tid : String) (now : Int) (pre post : List StopClock) (s : StopClock),
        s.ticketId = tid → s.endAt = none →
        (∀ x ∈ post, ¬(x.ticketId = tid ∧ x.endAt = none)) →
        resumeTicket tid now (pre ++ s :: post) = pre ++ closeStop now s :: post)
  ∧ (∀ (tid : String) (now : Int) (stops : List StopClock),
        (∀ x ∈ stops, ¬(x.ticketId = tid ∧ x.endAt = none)) →
        resumeTicket tid now stops = stops) := by
  constructor
  · intro tid now pre post s hs he hpost
    rw [resumeTicket, resumeGo_append tid now pre post s hs he hpost, Option.getD_some]
  · intro tid now stops h
    rw [resumeTicket, resumeGo_none tid now stops h, Option.getD_none]

/-- C7 witness: with two open intervals of ticket `T` — `openStop1` added
first with `startAt = 10`, `openStop2` added second with the earlier
`startAt = 5` — Resume closes `openStop2`, the most recently added one; and on
a ledger whose only interval of `T` is already closed, Resume changes
nothing. -/
theorem C7_witness :
    resumeTicket "T" 100 [openStop1, openStop2] = [openStop1, closeStop 100 openStop2]
  ∧ resumeTicket "T" 100 [closeStop 7 openStop1] = [closeStop 7 openStop1] := by
  constructor
  · exact C7_resume_semantics.1 "T" 100 [openStop1] [] openStop2 rfl rfl (by simp)
  · exact C7_resume_semantics.2 "T" 100 [closeStop 7 openStop1]
      (by simp [closeStop, openStop1])

end HCM
